import Mathlib

/-!
Verification development for the notebooklm repository.

This file gives a shallow embedding of the parts of the TypeScript code that
the checked claims are about, and settles each claim against it:

* `SimpleTextSplitter` and `splitText` from `src/lib/supabase.ts`
  (chunking of document text);
* `DatabaseService.deleteSource` / `getSources` from `src/lib/database.ts`
  and the `DELETE` handler of `src/app/api/documents/[id]/route.ts`
  (tenancy scoping of reads and deletes);
* `VectorService.addDocuments` from `src/lib/langchain.ts`
  (best-effort insert pipeline);
* the gRPC client response validation and timeout handling of
  `src/lib/grpc-client.ts` and the enhanced client variant
  (`GraphRAGClient.queryGraph`, `processFile`, `insertContent`).

Strings are modelled as `List Char` (the inputs of interest are ASCII, where
one JavaScript UTF-16 code unit is one `Char`).  JavaScript numbers that can
be `-1` are modelled as `Int`; all other indices are `Nat`.
-/

namespace NotebookLM

/-! ## JavaScript string primitives used by the splitter -/

/-- The ASCII fragment of the JavaScript whitespace class removed by
`String.prototype.trim`: space, tab, line feed, carriage return, vertical
tab, form feed. -/
def isJsWs (c : Char) : Bool :=
  c == ' ' || c == '\t' || c == '\n' || c == '\r' || c.toNat == 11 || c.toNat == 12

/-- `text.trim()`: strip `isJsWs` characters from both ends. -/
def jsTrim (l : List Char) : List Char :=
  ((l.dropWhile isJsWs).reverse.dropWhile isJsWs).reverse

/-- `text.slice(start, end)` for non-negative arguments: the segment from
`s` (inclusive) to `e` (exclusive), clamped to the string, empty if `e ≤ s`. -/
def jsSlice (l : List Char) (s e : Nat) : List Char :=
  (l.drop s).take (e - s)

/-- Index of the last occurrence of `c` in `l` (`-1` if absent). -/
def lastIdxIn (c : Char) : List Char → Int
  | [] => -1
  | x :: xs =>
    let r := lastIdxIn c xs
    if 0 ≤ r then r + 1
    else if x = c then 0 else -1

/-- `text.lastIndexOf(c, fromIdx)` for `fromIdx ≥ 0`: the largest index
`i ≤ fromIdx` with `text[i] = c`, else `-1` (JavaScript clamps the start of
the backward search to the last index of the string). -/
def lastIdxFrom (t : List Char) (c : Char) (fromIdx : Nat) : Int :=
  lastIdxIn c (t.take (fromIdx + 1))

/-! ## SimpleTextSplitter (src/lib/supabase.ts) -/

structure SimpleTextSplitter where
  chunkSize : Nat
  chunkOverlap : Nat
  deriving Repr, DecidableEq

/-- JavaScript `options.x || default`: a missing option *or the value `0`*
(falsy) is replaced by the default. -/
def jsOrDefault (v : Option Nat) (d : Nat) : Nat :=
  match v with
  | none => d
  | some n => if n = 0 then d else n

/-- The `SimpleTextSplitter` constructor:
`chunkSize = options.chunkSize || 1000`, `chunkOverlap = options.chunkOverlap || 200`.
It performs no validation. -/
def mkSplitter (chunkSizeOpt chunkOverlapOpt : Option Nat) : SimpleTextSplitter :=
  ⟨jsOrDefault chunkSizeOpt 1000, jsOrDefault chunkOverlapOpt 200⟩

/-- `Math.max(sentenceEnd, questionEnd, exclamationEnd)`: the best sentence
boundary at or before `e`. -/
def sentenceBoundary (text : List Char) (e : Nat) : Int :=
  max (max (lastIdxFrom text '.' e) (lastIdxFrom text '?' e)) (lastIdxFrom text '!' e)

/-- One loop iteration's cut point: `end = start + chunkSize`, then, if not
at the end of the text, move `end` to `sentenceBoundary + 1` when the
sentence boundary lies strictly past `start + chunkSize * 0.5`, else to the
last space under the same window condition, else keep the hard cut.  The
float comparison `b > start + chunkSize * 0.5` is the exact integer
comparison `2*b > 2*start + chunkSize`. -/
def cutEnd (cs : Nat) (text : List Char) (start : Nat) : Nat :=
  if start + cs < text.length then
    if 2 * sentenceBoundary text (start + cs) > 2 * (start : Int) + (cs : Int) then
      (sentenceBoundary text (start + cs) + 1).toNat
    else if 2 * lastIdxFrom text ' ' (start + cs) > 2 * (start : Int) + (cs : Int) then
      (lastIdxFrom text ' ' (start + cs)).toNat
    else start + cs
  else start + cs

/-- `start = end - overlap; if (start < 0) start = 0`: the next iteration's
start index. -/
def nextStart (co e : Nat) : Nat :=
  if co ≤ e then e - co else 0

/-- The `while (start < text.length)` loop of `splitText`, with explicit
fuel: each iteration pushes `text.slice(start, end).trim()` with
`end = cutEnd`, then continues from `nextStart` and breaks once that index
reaches the end of the text.  `none` models non-termination (fuel
exhausted), which is possible for configurations the constructor accepts. -/
def splitLoop (cs co : Nat) (text : List Char) : Nat → Nat → Option (List (List Char))
  | 0, _ => none
  | fuel + 1, start =>
    if text.length ≤ nextStart co (cutEnd cs text start) then
      some [jsTrim (jsSlice text start (cutEnd cs text start))]
    else
      match splitLoop cs co text fuel (nextStart co (cutEnd cs text start)) with
      | none => none
      | some rest => some (jsTrim (jsSlice text start (cutEnd cs text start)) :: rest)

/-- `SimpleTextSplitter.splitText`: texts of length at most `chunkSize` are
returned as a single chunk (without trimming); longer texts go through the
chunking loop and empty chunks are filtered out of the result. -/
def splitText (s : SimpleTextSplitter) (text : List Char) : Option (List (List Char)) :=
  if text.length ≤ s.chunkSize then some [text]
  else (splitLoop s.chunkSize s.chunkOverlap text (text.length + 1) 0).map
    (·.filter (fun c => !c.isEmpty))

/-! ## DatabaseService and the documents DELETE route
(src/lib/database.ts, src/app/api/documents/[id]/route.ts) -/

/-- A row of the `sources` table (the columns the claims are about). -/
structure SourceRow where
  id : String
  user_id : String
  project_id : String
  deriving Repr, DecidableEq

/-- `DatabaseService.deleteSource`: `from("sources").delete().eq("id", sourceId)` —
the delete is filtered by `id` only, with no `user_id` condition. -/
def deleteSource (sources : List SourceRow) (sourceId : String) : List SourceRow :=
  sources.filter (fun r => r.id != sourceId)

/-- `DatabaseService.getSources`: select rows with `user_id = userId`, and
additionally `project_id = projectId` when a project id is given. -/
def getSources (sources : List SourceRow) (userId : String) (projectId : Option String) :
    List SourceRow :=
  sources.filter (fun r =>
    r.user_id == userId &&
      (match projectId with
       | some p => r.project_id == p
       | none => true))

/-- The session user attached to an authenticated request. -/
structure SessionUser where
  id : String
  email : String
  name : String
  deriving Repr, DecidableEq

inductive DeleteDocResponse where
  | unauthorized
  | badRequest
  | ok
  deriving Repr, DecidableEq

/-- The `DELETE` handler of `src/app/api/documents/[id]/route.ts`: 401 when
there is no session, 400 when the id parameter is falsy (empty), otherwise it
calls `deleteSource(sourceId)` on the `sources` table and reports success.
(The preceding `deleteDocumentsBySourceId` call on the embeddings table is
likewise filtered by source id only.)  Returns the response together with the
resulting table state. -/
def documentsDeleteRoute (session : Option SessionUser) (sourceId : String)
    (sources : List SourceRow) : DeleteDocResponse × List SourceRow :=
  match session with
  | none => (.unauthorized, sources)
  | some _ =>
    if sourceId = "" then (.badRequest, sources)
    else (.ok, deleteSource sources sourceId)

/-! ## VectorService.addDocuments (src/lib/langchain.ts) -/

/-- Result of the GraphRAG `InsertContent` RPC. -/
structure InsertContentResult where
  success : Bool
  error : String
  deriving Repr, DecidableEq

/-- Outcomes of the effectful sub-steps of `addDocuments`, supplied as an
environment: the embedding call either succeeds or throws; each batch insert
into `document_embeddings` either succeeds or yields a Supabase error; the
GraphRAG `insertContent` promise either resolves or rejects. -/
structure AddDocsEnv where
  embedError : Option String
  batchInsertError : Nat → Option String
  graphResult : Except String InsertContentResult

structure AddDocsResult where
  success : Bool
  chunksCount : Nat
  deriving Repr, DecidableEq

/-- The splitter the `VectorService` constructor builds:
`new SimpleTextSplitter({ chunkSize: 1000, chunkOverlap: 200 })`. -/
def vsSplitter : SimpleTextSplitter := mkSplitter (some 1000) (some 200)

/-- Number of batches of size 10 covering `n` documents. -/
def numBatches (n : Nat) : Nat := (n + 9) / 10

/-- `VectorService.addDocuments`: split the content, embed the chunks (a
failure throws), insert them into `document_embeddings` in batches of 10 (the
first batch error throws, aborting the remaining batches), then call the
GraphRAG service inside a `try`/`catch` whose failure — rejection or a
response with `success: false` — is only logged, and finally return
`{ success: true, chunksCount }`.  The outer `Option` is inherited from the
fuelled splitter. -/
def addDocuments (env : AddDocsEnv) (content : List Char) :
    Option (Except String AddDocsResult) :=
  (splitText vsSplitter content).map (fun chunks =>
    match env.embedError with
    | some e => .error e
    | none =>
      match (List.range (numBatches chunks.length)).findSome? env.batchInsertError with
      | some e => .error e
      | none => .ok ⟨true, chunks.length⟩)

/-! ## gRPC client response validation (src/lib/grpc-client.ts and the
enhanced client variant) -/

/-- A JavaScript value as seen in a deserialized RPC response field. -/
inductive JSVal where
  | vUndef
  | vNull
  | vBool (b : Bool)
  | vNum (n : Int)
  | vStr (s : String)
  | vObj
  deriving Repr, DecidableEq

/-- JavaScript truthiness. -/
def truthy : JSVal → Bool
  | .vUndef => false
  | .vNull => false
  | .vBool b => b
  | .vNum n => n != 0
  | .vStr s => s != ""
  | .vObj => true

/-- JavaScript `a || b`. -/
def jsOr (a b : JSVal) : JSVal := if truthy a then a else b

/-- `typeof v === 'boolean'`. -/
def isBoolVal : JSVal → Bool
  | .vBool _ => true
  | _ => false

/-- `typeof v === 'string'`. -/
def isStrVal : JSVal → Bool
  | .vStr _ => true
  | _ => false

/-- A raw `QueryGraphResponse` as delivered by the transport, before any
client-side validation: every field may hold an arbitrary value. -/
structure RawQueryGraphResponse where
  response : JSVal
  context : JSVal
  success : JSVal
  error : JSVal
  deriving Repr, DecidableEq

/-- A raw `ProcessFileResponse` before validation. -/
structure RawProcessFileResponse where
  success : JSVal
  error : JSVal
  markdown_content : JSVal
  content_length : JSVal
  deriving Repr, DecidableEq

/-- `GraphRAGClient.queryGraph` of `src/lib/grpc-client.ts`: the callback
rejects on a transport error and otherwise resolves the raw response as-is —
no validation, no defaults. -/
def queryGraphPlain (err : Option String) (resp : RawQueryGraphResponse) :
    Except String RawQueryGraphResponse :=
  match err with
  | some e => .error e
  | none => .ok resp

/-- The enhanced client's `queryGraph` response validation:
each field is `field || default` (`''`, `{}`, `false`, `''`). -/
def validateQueryGraphResponse (r : RawQueryGraphResponse) : RawQueryGraphResponse :=
  { response := jsOr r.response (.vStr "")
    context := jsOr r.context .vObj
    success := jsOr r.success (.vBool false)
    error := jsOr r.error (.vStr "") }

/-- The enhanced client's `processFile` response validation: reject when
`typeof response.success !== 'boolean'`, otherwise fill `''`/`0` defaults for
falsy fields. -/
def validateProcessFileResponse (r : RawProcessFileResponse) :
    Except String RawProcessFileResponse :=
  if isBoolVal r.success then
    .ok { success := r.success
          error := jsOr r.error (.vStr "")
          markdown_content := jsOr r.markdown_content (.vStr "")
          content_length := jsOr r.content_length (.vNum 0) }
  else .error "Invalid response from processing service"

/-! ## Client-side call timeouts (enhanced client `insertContent`,
`processFile`, `queryGraph`) -/

/-- Effects a timer handler can perform on the pending call. -/
inductive TimerEffect where
  | rejectPromise (msg : String)
  | cancelCall
  deriving Repr, DecidableEq

/-- The body of the `setTimeout` handler registered by `insertContent` is
exactly `reject(new Error('gRPC call timeout: ...'))`: it rejects the promise
and performs no cancellation of the in-flight gRPC call. -/
def insertContentTimeoutEffects : List TimerEffect :=
  [.rejectPromise "gRPC call timeout: Content insertion took too long"]

def processFileTimeoutEffects : List TimerEffect :=
  [.rejectPromise "gRPC call timeout: File processing took too long"]

def queryGraphTimeoutEffects : List TimerEffect :=
  [.rejectPromise "gRPC call timeout: Graph query took too long"]

def insertContentDeadlineMs : Nat := 2 * 60 * 1000
def processFileDeadlineMs : Nat := 5 * 60 * 1000
def queryGraphDeadlineMs : Nat := 30 * 1000

/-- How the caller observes a promise. -/
inductive Settled (α : Type) where
  | resolved (v : α)
  | rejected (msg : String)
  deriving Repr, DecidableEq

/-- Settlement of a client call whose executor registers a timer that rejects
at `deadline` and a gRPC callback that fires at `arrival` (ms), `none` when
it never fires.  A promise settles once: if the callback fires strictly
before the deadline it clears the timer and wins, otherwise the timer's
rejection wins and the late callback is a no-op. -/
def raceWithTimeout {α : Type} (deadline : Nat) (timeoutMsg : String)
    (arrival : Option Nat) (callback : Except String α) : Settled α :=
  match arrival with
  | some t =>
    if t < deadline then
      match callback with
      | .ok v => .resolved v
      | .error e => .rejected e
    else .rejected timeoutMsg
  | none => .rejected timeoutMsg

/-- `insertContent` of the enhanced client: 2-minute timer racing the
InsertContent callback.  (The UNAVAILABLE / INVALID_ARGUMENT message
rewriting on the error path is not claim-relevant and is left as the raw
error message.) -/
def insertContentSettled (arrival : Option Nat)
    (callback : Except String InsertContentResult) : Settled InsertContentResult :=
  raceWithTimeout insertContentDeadlineMs
    "gRPC call timeout: Content insertion took too long" arrival callback

/-- `queryGraph` of the enhanced client: 30-second timer; a response that
arrives in time is validated before being resolved. -/
def queryGraphSettled (arrival : Option Nat)
    (callback : Except String RawQueryGraphResponse) : Settled RawQueryGraphResponse :=
  raceWithTimeout queryGraphDeadlineMs
    "gRPC call timeout: Graph query took too long" arrival
    (callback.map validateQueryGraphResponse)

/-! ## Lemmas: last-index search -/

theorem neg_one_le_lastIdxIn (c : Char) (l : List Char) : -1 ≤ lastIdxIn c l := by
  induction l with
  | nil => simp [lastIdxIn]
  | cons x xs ih =>
    simp only [lastIdxIn]
    split
    · omega
    · split <;> omega

theorem lastIdxIn_lt_length (c : Char) (l : List Char) :
    lastIdxIn c l < (l.length : Int) := by
  induction l with
  | nil => simp [lastIdxIn]
  | cons x xs ih =>
    simp only [lastIdxIn, List.length_cons]
    split
    · push_cast; omega
    · split <;> (push_cast; omega)

theorem lastIdxIn_get (c : Char) (l : List Char) (h : 0 ≤ lastIdxIn c l) :
    l.get? (lastIdxIn c l).toNat = some c := by
  induction l with
  | nil => simp [lastIdxIn] at h
  | cons x xs ih =>
    simp only [lastIdxIn] at h ⊢
    by_cases hr : 0 ≤ lastIdxIn c xs
    · rw [if_pos hr] at h ⊢
      have : (lastIdxIn c xs + 1).toNat = (lastIdxIn c xs).toNat + 1 := by omega
      rw [this]
      simpa using ih hr
    · rw [if_neg hr] at h ⊢
      by_cases hx : x = c
      · simp [hx]
      · simp [hx] at h

theorem le_lastIdxIn (c : Char) (l : List Char) (j : Nat) (h : l.get? j = some c) :
    (j : Int) ≤ lastIdxIn c l := by
  induction l generalizing j with
  | nil => simp at h
  | cons x xs ih =>
    simp only [lastIdxIn]
    cases j with
    | zero =>
      split
      · omega
      · have hx : x = c := by simpa using h
        simp [hx]
    | succ j' =>
      have hj : xs.get? j' = some c := by simpa using h
      have := ih j' hj
      have hr : 0 ≤ lastIdxIn c xs := le_trans (by omega) this
      rw [if_pos hr]
      push_cast
      omega

theorem lastIdxIn_eq_neg_one (c : Char) (l : List Char) (h : ∀ x ∈ l, x ≠ c) :
    lastIdxIn c l = -1 := by
  induction l with
  | nil => simp [lastIdxIn]
  | cons x xs ih =>
    have hx : x ≠ c := h x (by simp)
    have hxs : lastIdxIn c xs = -1 := ih (fun y hy => h y (by simp [hy]))
    simp [lastIdxIn, hxs, hx]

theorem lastIdxFrom_le (t : List Char) (c : Char) (k : Nat) :
    lastIdxFrom t c k ≤ (k : Int) := by
  have h1 := lastIdxIn_lt_length c (t.take (k + 1))
  have h2 : (t.take (k + 1)).length ≤ k + 1 := by
    simp [List.length_take]
  unfold lastIdxFrom
  push_cast at h1 ⊢
  omega

theorem lastIdxFrom_get (t : List Char) (c : Char) (k : Nat)
    (h : 0 ≤ lastIdxFrom t c k) :
    t.get? (lastIdxFrom t c k).toNat = some c := by
  have hget := lastIdxIn_get c (t.take (k + 1)) h
  have hlt := lastIdxIn_lt_length c (t.take (k + 1))
  have hlen : (t.take (k + 1)).length ≤ k + 1 := by simp [List.length_take]
  unfold lastIdxFrom at *
  rwa [List.get?_take (by omega)] at hget

theorem le_lastIdxFrom (t : List Char) (c : Char) (k j : Nat)
    (hj : j ≤ k) (h : t.get? j = some c) :
    (j : Int) ≤ lastIdxFrom t c k := by
  unfold lastIdxFrom
  apply le_lastIdxIn
  rwa [List.get?_take (by omega)]

theorem lastIdxFrom_eq_neg_one (t : List Char) (c : Char) (k : Nat)
    (h : ∀ x ∈ t, x ≠ c) :
    lastIdxFrom t c k = -1 :=
  lastIdxIn_eq_neg_one c _ (fun x hx => h x (List.take_subset _ _ hx))

/-! ## Lemmas: cut point bounds -/

theorem sentenceBoundary_le (text : List Char) (e : Nat) :
    sentenceBoundary text e ≤ (e : Int) := by
  have hs := lastIdxFrom_le text '.' e
  have hq := lastIdxFrom_le text '?' e
  have he := lastIdxFrom_le text '!' e
  unfold sentenceBoundary
  omega

theorem cutEnd_le (cs : Nat) (text : List Char) (start : Nat) :
    cutEnd cs text start ≤ start + cs + 1 := by
  unfold cutEnd
  have hs := sentenceBoundary_le text (start + cs)
  have hw := lastIdxFrom_le text ' ' (start + cs)
  split
  · split
    · omega
    · split
      · omega
      · omega
  · omega

theorem lt_cutEnd (cs co : Nat) (text : List Char) (start : Nat)
    (h2 : 2 * co < cs) :
    start + co < cutEnd cs text start := by
  unfold cutEnd
  split
  · split
    · omega
    · split
      · omega
      · omega
  · omega

/-! ## Lemmas: trim, slice, loop invariants -/

theorem dropWhile_eq_self_of_head (p : Char → Bool) (l : List Char)
    (h : ∀ c, l.head? = some c → p c = false) : l.dropWhile p = l := by
  cases l with
  | nil => rfl
  | cons x xs => simp [List.dropWhile_cons, h x rfl]

theorem jsTrim_eq_self (l : List Char)
    (h1 : ∀ c, l.head? = some c → isJsWs c = false)
    (h2 : ∀ c, l.getLast? = some c → isJsWs c = false) : jsTrim l = l := by
  unfold jsTrim
  rw [dropWhile_eq_self_of_head _ _ h1]
  rw [dropWhile_eq_self_of_head _ _ (fun c hc => h2 c (by rwa [List.head?_reverse] at hc))]
  exact List.reverse_reverse l

theorem jsTrim_length_le (l : List Char) : (jsTrim l).length ≤ l.length := by
  unfold jsTrim
  calc ((l.dropWhile isJsWs).reverse.dropWhile isJsWs).reverse.length
      = ((l.dropWhile isJsWs).reverse.dropWhile isJsWs).length := List.length_reverse _
    _ ≤ (l.dropWhile isJsWs).reverse.length := (List.dropWhile_sublist _).length_le
    _ = (l.dropWhile isJsWs).length := List.length_reverse _
    _ ≤ l.length := (List.dropWhile_sublist _).length_le

theorem jsSlice_length_le (l : List Char) (s e : Nat) :
    (jsSlice l s e).length ≤ e - s := by
  unfold jsSlice
  simp [List.length_take]

theorem splitLoop_isSome (cs co : Nat) (text : List Char) (h2 : 2 * co < cs) :
    ∀ (fuel start : Nat), text.length - start ≤ fuel → start < text.length →
      (splitLoop cs co text fuel start).isSome = true := by
  intro fuel
  induction fuel with
  | zero => intro start hf hs; omega
  | succ fuel ih =>
    intro start hf hs
    rw [splitLoop]
    by_cases hb : text.length ≤ nextStart co (cutEnd cs text start)
    · simp [hb]
    · have he := lt_cutEnd cs co text start h2
      have hns : start < nextStart co (cutEnd cs text start) := by
        unfold nextStart; split <;> omega
      have hrec := ih (nextStart co (cutEnd cs text start)) (by omega) (by omega)
      rw [if_neg hb]
      cases hsl : splitLoop cs co text fuel (nextStart co (cutEnd cs text start)) with
      | none => rw [hsl] at hrec; simp at hrec
      | some rest => simp

theorem splitLoop_mem_length (cs co : Nat) (text : List Char) :
    ∀ (fuel start : Nat) (L : List (List Char)),
      splitLoop cs co text fuel start = some L → ∀ c ∈ L, c.length ≤ cs + 1 := by
  intro fuel
  induction fuel with
  | zero => intro start L hL; simp [splitLoop] at hL
  | succ fuel ih =>
    intro start L hL c hc
    have hchunk : (jsTrim (jsSlice text start (cutEnd cs text start))).length ≤ cs + 1 := by
      have h1 := jsTrim_length_le (jsSlice text start (cutEnd cs text start))
      have h2 := jsSlice_length_le text start (cutEnd cs text start)
      have h3 := cutEnd_le cs text start
      omega
    rw [splitLoop] at hL
    by_cases hb : text.length ≤ nextStart co (cutEnd cs text start)
    · rw [if_pos hb] at hL
      obtain rfl : [jsTrim (jsSlice text start (cutEnd cs text start))] = L :=
        Option.some.inj hL
      simp only [List.mem_singleton] at hc
      subst hc; exact hchunk
    · rw [if_neg hb] at hL
      cases hsl : splitLoop cs co text fuel (nextStart co (cutEnd cs text start)) with
      | none => rw [hsl] at hL; simp at hL
      | some rest =>
        rw [hsl] at hL
        obtain rfl : jsTrim (jsSlice text start (cutEnd cs text start)) :: rest = L :=
          Option.some.inj hL
        rcases List.mem_cons.mp hc with h | h
        · subst h; exact hchunk
        · exact ih _ rest hsl c h

theorem splitText_isSome (cs co : Nat) (text : List Char) (h2 : 2 * co < cs) :
    (splitText ⟨cs, co⟩ text).isSome = true := by
  unfold splitText
  by_cases h : text.length ≤ cs
  · simp [h]
  · rw [if_neg h]
    have hs := splitLoop_isSome cs co text h2 (text.length + 1) 0 (by omega) (by omega)
    cases hsl : splitLoop cs co text (text.length + 1) 0 with
    | none => rw [hsl] at hs; simp at hs
    | some L => simp [hsl]

theorem splitText_mem (s : SimpleTextSplitter) (text : List Char) (L : List (List Char))
    (hL : splitText s text = some L) (c : List Char) (hc : c ∈ L) :
    c.length ≤ s.chunkSize + 1 ∧ (s.chunkSize < text.length → c ≠ []) := by
  unfold splitText at hL
  by_cases h : text.length ≤ s.chunkSize
  · rw [if_pos h] at hL
    obtain rfl : [text] = L := Option.some.inj hL
    simp only [List.mem_singleton] at hc
    subst hc
    exact ⟨by omega, fun hlt => absurd h (by omega)⟩
  · rw [if_neg h] at hL
    cases hsl : splitLoop s.chunkSize s.chunkOverlap text (text.length + 1) 0 with
    | none => rw [hsl] at hL; simp at hL
    | some L0 =>
      rw [hsl] at hL
      obtain rfl : L0.filter (fun c => !c.isEmpty) = L := Option.some.inj hL
      constructor
      · exact splitLoop_mem_length s.chunkSize s.chunkOverlap text _ 0 L0 hsl c
          (List.mem_of_mem_filter hc)
      · intro _
        have := List.of_mem_filter hc
        simpa using this

/-! ## A concrete long text for the default configuration: 1000 copies of
`'a'`, then `'.'`, then two `'b'`s.  The sentence boundary sits exactly at
index `start + chunkSize`, so the first cut lands one character past the
hard cut. -/

def t10 : List Char := List.replicate 1000 'a' ++ ['.', 'b', 'b']

def t10c1 : List Char := List.replicate 1000 'a' ++ ['.']

def t10c2 : List Char := List.replicate 199 'a' ++ ['.', 'b', 'b']

theorem t10_length : t10.length = 1003 := by
  unfold t10
  rw [List.length_append, List.length_replicate]
  rfl

theorem t10_get_1000 : t10.get? 1000 = some '.' := by
  unfold t10
  have hl : (List.replicate 1000 'a').length = 1000 := List.length_replicate _ _
  rw [List.get?_append_right (le_of_eq hl), hl]
  rfl

theorem t10_no_qmark : ∀ x ∈ t10, x ≠ '?' := by
  intro x hx
  rcases List.mem_append.mp hx with h | h
  · rw [List.eq_of_mem_replicate h]; decide
  · fin_cases h <;> decide

theorem t10_no_excl : ∀ x ∈ t10, x ≠ '!' := by
  intro x hx
  rcases List.mem_append.mp hx with h | h
  · rw [List.eq_of_mem_replicate h]; decide
  · fin_cases h <;> decide

theorem t10_sentenceBoundary : sentenceBoundary t10 1000 = 1000 := by
  have hd : lastIdxFrom t10 '.' 1000 = 1000 := by
    have h1 := lastIdxFrom_le t10 '.' 1000
    have h2 := le_lastIdxFrom t10 '.' 1000 1000 le_rfl t10_get_1000
    omega
  have hq : lastIdxFrom t10 '?' 1000 = -1 :=
    lastIdxFrom_eq_neg_one _ _ _ t10_no_qmark
  have he : lastIdxFrom t10 '!' 1000 = -1 :=
    lastIdxFrom_eq_neg_one _ _ _ t10_no_excl
  unfold sentenceBoundary
  rw [hd, hq, he]
  decide

theorem t10_cutEnd_0 : cutEnd 1000 t10 0 = 1001 := by
  unfold cutEnd
  rw [t10_length]
  rw [if_pos (by norm_num)]
  have h0 : (0 : Nat) + 1000 = 1000 := rfl
  rw [h0, t10_sentenceBoundary]
  rw [if_pos (by decide)]
  decide

theorem t10_cutEnd_801 : cutEnd 1000 t10 801 = 1801 := by
  unfold cutEnd
  rw [t10_length]
  rw [if_neg (by norm_num)]

theorem t10_slice1 : jsSlice t10 0 1001 = t10c1 := by
  unfold jsSlice t10 t10c1
  have hl : (List.replicate 1000 'a').length = 1000 := List.length_replicate _ _
  rw [List.drop_zero, Nat.sub_zero, List.take_append_eq_append_take,
    List.take_of_length_le (by rw [hl]; norm_num), hl]
  rfl

theorem t10_c1_trim : jsTrim t10c1 = t10c1 := by
  apply jsTrim_eq_self
  · intro c hc
    unfold t10c1 at hc
    rw [show (1000 : Nat) = 999 + 1 from rfl, List.replicate_succ, List.cons_append,
      List.head?_cons] at hc
    obtain rfl : 'a' = c := Option.some.inj hc
    decide
  · intro c hc
    unfold t10c1 at hc
    rw [List.getLast?_concat] at hc
    obtain rfl : '.' = c := Option.some.inj hc
    decide

theorem t10_drop_801 : t10.drop 801 = t10c2 := by
  unfold t10 t10c2
  have hl : (List.replicate 801 'a').length = 801 := List.length_replicate _ _
  rw [show (1000 : Nat) = 801 + 199 from rfl, List.replicate_add, List.append_assoc,
    List.drop_append_eq_append_drop, List.drop_of_length_le (le_of_eq hl), hl,
    Nat.sub_self, List.drop_zero, List.nil_append]

theorem t10c2_length : t10c2.length = 202 := by
  unfold t10c2
  rw [List.length_append, List.length_replicate]
  rfl

theorem t10_slice2 : jsSlice t10 801 1801 = t10c2 := by
  unfold jsSlice
  rw [t10_drop_801, List.take_of_length_le (by rw [t10c2_length]; norm_num)]

theorem t10_c2_trim : jsTrim t10c2 = t10c2 := by
  apply jsTrim_eq_self
  · intro c hc
    unfold t10c2 at hc
    rw [show (199 : Nat) = 198 + 1 from rfl, List.replicate_succ, List.cons_append,
      List.head?_cons] at hc
    obtain rfl : 'a' = c := Option.some.inj hc
    decide
  · intro c hc
    unfold t10c2 at hc
    rw [show (['.', 'b', 'b'] : List Char) = ['.', 'b'] ++ ['b'] from rfl,
      ← List.append_assoc, List.getLast?_concat] at hc
    obtain rfl : 'b' = c := Option.some.inj hc
    decide

theorem splitText_t10 : splitText (mkSplitter none none) t10 = some [t10c1, t10c2] := by
  unfold splitText
  rw [show (mkSplitter none none).chunkSize = 1000 from rfl,
    show (mkSplitter none none).chunkOverlap = 200 from rfl, t10_length]
  rw [if_neg (by norm_num)]
  rw [splitLoop]
  rw [t10_cutEnd_0]
  rw [show nextStart 200 1001 = 801 from rfl]
  rw [t10_length]
  rw [if_neg (by norm_num)]
  rw [show (1003 : Nat) = 1002 + 1 from rfl, splitLoop]
  rw [t10_cutEnd_801]
  rw [show nextStart 200 1801 = 1601 from rfl]
  rw [t10_length]
  rw [if_pos (by norm_num)]
  rw [t10_slice2, t10_c2_trim, t10_slice1, t10_c1_trim]
  have h1 : (!t10c1.isEmpty) = true := by
    unfold t10c1
    rw [show (1000 : Nat) = 999 + 1 from rfl, List.replicate_succ, List.cons_append]
    rfl
  have h2 : (!t10c2.isEmpty) = true := by
    unfold t10c2
    rw [show (199 : Nat) = 198 + 1 from rfl, List.replicate_succ, List.cons_append]
    rfl
  rw [Option.map_some', List.filter_cons, List.filter_cons, if_pos h1, if_pos h2,
    List.filter_nil]

theorem t10_c1_length : t10c1.length = 1001 := by
  unfold t10c1
  rw [List.length_append, List.length_replicate]
  rfl

/-! ## Lemmas: the character found by the sentence-boundary search -/

theorem sentenceBoundary_get (text : List Char) (e : Nat)
    (h : 0 ≤ sentenceBoundary text e) :
    text.get? (sentenceBoundary text e).toNat = some '.' ∨
    text.get? (sentenceBoundary text e).toNat = some '?' ∨
    text.get? (sentenceBoundary text e).toNat = some '!' := by
  unfold sentenceBoundary at h ⊢
  rcases max_choice (max (lastIdxFrom text '.' e) (lastIdxFrom text '?' e))
      (lastIdxFrom text '!' e) with hmax | hmax <;> rw [hmax] at h ⊢
  · rcases max_choice (lastIdxFrom text '.' e) (lastIdxFrom text '?' e) with hm | hm <;>
      rw [hm] at h ⊢
    · exact Or.inl (lastIdxFrom_get text '.' e h)
    · exact Or.inr (Or.inl (lastIdxFrom_get text '?' e h))
  · exact Or.inr (Or.inr (lastIdxFrom_get text '!' e h))

theorem le_sentenceBoundary (text : List Char) (e j : Nat) (hj : j ≤ e)
    (hc : text.get? j = some '.' ∨ text.get? j = some '?' ∨ text.get? j = some '!') :
    (j : Int) ≤ sentenceBoundary text e := by
  unfold sentenceBoundary
  rcases hc with hc | hc | hc
  · exact le_trans (le_lastIdxFrom text '.' e j hj hc)
      (le_trans (le_max_left _ _) (le_max_left _ _))
  · exact le_trans (le_lastIdxFrom text '?' e j hj hc)
      (le_trans (le_max_right _ _) (le_max_left _ _))
  · exact le_trans (le_lastIdxFrom text '!' e j hj hc) (le_max_right _ _)

/-! ## Claims -/

/-- The `sources` table holding one source that belongs to `userB`. -/
def c1Db : List SourceRow := [⟨"s1", "userB", "proj1"⟩]

/-- The authenticated requester, a different user. -/
def c1Requester : SessionUser := ⟨"userA", "usera@example.com", "User A"⟩

/-- C1.  Claimed: every read and write is confined to the requesting user's
namespace; in particular an authenticated DELETE can only remove a source
belonging to the requesting user.  The code violates this: the route
authenticates the session but then calls `deleteSource(sourceId)`, which
filters by `id` only, so `userA`'s authenticated DELETE of `"s1"` removes the
source owned by `userB` (while `getSources` does scope reads by user).  This
theorem evaluates the route at that failing input: the response is `ok` and
`userB`'s row is gone. -/
theorem c1_cross_tenant_delete :
    documentsDeleteRoute (some c1Requester) "s1" c1Db = (.ok, []) ∧
    (∀ r ∈ c1Db, r.user_id ≠ c1Requester.id) ∧
    getSources c1Db c1Requester.id none = [] := by
  refine ⟨rfl, ?_, rfl⟩
  decide

/-- C2 counterexample.  Claimed: the empty input yields an empty list of
chunks.  In fact `splitText("")` takes the `text.length <= chunkSize` branch
and returns `[text]`, i.e. a one-element list containing the empty string,
which is not the empty list. -/
theorem c2_counterexample :
    splitText (mkSplitter none none) [] = some [[]] ∧
    (some [([] : List Char)] : Option (List (List Char))) ≠ some [] := by
  exact ⟨rfl, by decide⟩

/-- C2 (amended).  For every text whose length is at most the chunk size —
in particular the empty text and every non-empty text shorter than the chunk
size — `splitText` returns exactly one chunk, the text itself; the empty
text therefore yields `[""]`, not an empty list. -/
theorem c2_single_chunk (s : SimpleTextSplitter) (text : List Char)
    (h : text.length ≤ s.chunkSize) :
    splitText s text = some [text] := by
  unfold splitText
  rw [if_pos h]

/-- Witness for C2 at the empty text and the default configuration. -/
theorem c2_single_chunk_witness :
    ([] : List Char).length ≤ (mkSplitter none none).chunkSize ∧
    splitText (mkSplitter none none) [] = some [[]] :=
  ⟨by decide, c2_single_chunk (mkSplitter none none) [] (by decide)⟩

/-- C3 counterexample.  Claimed: constructing the splitter with
`overlap ≥ chunk_size` fails with a `ConfigurationError`, and every
constructed configuration satisfies `overlap < chunk_size`.  In fact the
constructor performs no validation at all: it is total, and the configuration
`{chunkSize: 10, chunkOverlap: 20}` is accepted, violating the invariant. -/
theorem c3_counterexample :
    mkSplitter (some 10) (some 20) = ⟨10, 20⟩ ∧
    ¬((mkSplitter (some 10) (some 20)).chunkOverlap <
        (mkSplitter (some 10) (some 20)).chunkSize) := by
  decide

/-- C3 (amended).  The constructor never fails and performs no validation:
it accepts `overlap ≥ chunk_size`; a missing or zero (falsy) option is
replaced by the defaults 1000 and 200, and only the default configuration is
guaranteed to satisfy `overlap < chunk_size`. -/
theorem c3_no_validation :
    mkSplitter (some 10) (some 20) = ⟨10, 20⟩ ∧
    mkSplitter none none = ⟨1000, 200⟩ ∧
    mkSplitter (some 0) (some 0) = ⟨1000, 200⟩ ∧
    (mkSplitter none none).chunkOverlap < (mkSplitter none none).chunkSize := by
  decide

/-- A 13-character text whose only candidate separator is a paragraph break
(`"\n\n"` at indices 6–7), inside the window used for the other
separators. -/
def c4text : List Char := List.replicate 6 'a' ++ ['\n', '\n'] ++ List.replicate 5 'a'

/-- C4 counterexample.  Claimed: the cut point is chosen by a priority list
with paragraph breaks first, and a hard character cut happens only when no
separator lies in the allowed window.  With chunk size 10, the paragraph
break `"\n\n"` sits at indices 6–7 of `c4text` — inside the window
(`2*6 > 2*0 + 10`) — yet the splitter hard-cuts at `start + chunkSize = 10`,
and the produced first chunk runs straight through the paragraph break:
paragraph breaks are not among the separators the code searches for. -/
theorem c4_counterexample :
    cutEnd 10 c4text 0 = 0 + 10 ∧
    c4text.get? 6 = some '\n' ∧ c4text.get? 7 = some '\n' ∧
    2 * 6 > 2 * 0 + 10 ∧ 6 ≤ 0 + 10 ∧ 0 + 10 < c4text.length ∧
    splitText (mkSplitter (some 10) (some 3)) c4text =
      some [['a', 'a', 'a', 'a', 'a', 'a', '\n', '\n', 'a', 'a'],
            ['a', 'a', 'a', 'a', 'a']] := by
  decide

/-- C4 (amended).  For every position not at the end of the text, the cut
point is chosen by the priority list *sentence boundary (`'.'`, `'?'`,
`'!'`) first, then space*, and the hard cut at `start + chunkSize` happens
exactly when neither kind of separator lies in the allowed window
(`separator index j` with `2*j > 2*start + chunkSize` and
`j ≤ start + chunkSize`); paragraph breaks are not considered. -/
theorem c4_cut_priority (cs : Nat) (text : List Char) (start : Nat)
    (h : start + cs < text.length) :
    (∃ j : Nat, cutEnd cs text start = j + 1 ∧ j ≤ start + cs ∧
        2 * j > 2 * start + cs ∧
        (text.get? j = some '.' ∨ text.get? j = some '?' ∨ text.get? j = some '!')) ∨
    (∃ j : Nat, cutEnd cs text start = j ∧ j ≤ start + cs ∧
        2 * j > 2 * start + cs ∧ text.get? j = some ' ' ∧
        (∀ m : Nat, m ≤ start + cs → 2 * m > 2 * start + cs →
          ¬(text.get? m = some '.' ∨ text.get? m = some '?' ∨
            text.get? m = some '!'))) ∨
    (cutEnd cs text start = start + cs ∧
        (∀ m : Nat, m ≤ start + cs → 2 * m > 2 * start + cs →
          ¬(text.get? m = some '.' ∨ text.get? m = some '?' ∨
            text.get? m = some '!' ∨ text.get? m = some ' '))) := by
  by_cases h1 : 2 * sentenceBoundary text (start + cs) > 2 * (start : Int) + (cs : Int)
  · left
    have hsb0 : 0 ≤ sentenceBoundary text (start + cs) := by omega
    have hle := sentenceBoundary_le text (start + cs)
    refine ⟨(sentenceBoundary text (start + cs)).toNat, ?_, by omega, by omega,
      sentenceBoundary_get text (start + cs) hsb0⟩
    unfold cutEnd
    rw [if_pos h, if_pos h1]
    omega
  · have hnosb : ∀ m : Nat, m ≤ start + cs → 2 * m > 2 * start + cs →
        ¬(text.get? m = some '.' ∨ text.get? m = some '?' ∨ text.get? m = some '!') := by
      intro m hm hw hc
      have := le_sentenceBoundary text (start + cs) m hm hc
      omega
    by_cases h2 : 2 * lastIdxFrom text ' ' (start + cs) > 2 * (start : Int) + (cs : Int)
    · right; left
      have hw0 : 0 ≤ lastIdxFrom text ' ' (start + cs) := by omega
      have hwle := lastIdxFrom_le text ' ' (start + cs)
      refine ⟨(lastIdxFrom text ' ' (start + cs)).toNat, ?_, by omega, by omega,
        lastIdxFrom_get text ' ' (start + cs) hw0, hnosb⟩
      unfold cutEnd
      rw [if_pos h, if_neg h1, if_pos h2]
    · right; right
      refine ⟨?_, ?_⟩
      · unfold cutEnd
        rw [if_pos h, if_neg h1, if_neg h2]
      · intro m hm hw hc
        rcases hc with hc | hc | hc | hc
        · exact hnosb m hm hw (Or.inl hc)
        · exact hnosb m hm hw (Or.inr (Or.inl hc))
        · exact hnosb m hm hw (Or.inr (Or.inr hc))
        · have := le_lastIdxFrom text ' ' (start + cs) m hm hc
          omega

/-- Witness for C4 at `c4text` with chunk size 10 and start 0: no sentence
separator or space lies in the window, so the hard-cut disjunct holds. -/
theorem c4_cut_priority_witness :
    0 + 10 < c4text.length ∧
    ((∃ j : Nat, cutEnd 10 c4text 0 = j + 1 ∧ j ≤ 0 + 10 ∧
        2 * j > 2 * 0 + 10 ∧
        (c4text.get? j = some '.' ∨ c4text.get? j = some '?' ∨
          c4text.get? j = some '!')) ∨
    (∃ j : Nat, cutEnd 10 c4text 0 = j ∧ j ≤ 0 + 10 ∧
        2 * j > 2 * 0 + 10 ∧ c4text.get? j = some ' ' ∧
        (∀ m : Nat, m ≤ 0 + 10 → 2 * m > 2 * 0 + 10 →
          ¬(c4text.get? m = some '.' ∨ c4text.get? m = some '?' ∨
            c4text.get? m = some '!'))) ∨
    (cutEnd 10 c4text 0 = 0 + 10 ∧
        (∀ m : Nat, m ≤ 0 + 10 → 2 * m > 2 * 0 + 10 →
          ¬(c4text.get? m = some '.' ∨ c4text.get? m = some '?' ∨
            c4text.get? m = some '!' ∨ c4text.get? m = some ' ')))) :=
  ⟨by decide, c4_cut_priority 10 c4text 0 (by decide)⟩

/-- C5.  For every splitter configuration and text, and every pair of
consecutive chunks of the returned list, some suffix of the earlier chunk of
length at most the overlap is a prefix of the next chunk (the claim's
"unless a boundary shortened the cut" proviso is not even needed: the
stated existential always holds). -/
theorem c5_overlap_invariant (s : SimpleTextSplitter) (text : List Char)
    (L : List (List Char)) (i : Nat) (c1 c2 : List Char)
    (hL : splitText s text = some L)
    (h1 : L.get? i = some c1) (h2 : L.get? (i + 1) = some c2) :
    ∃ k : Nat, k ≤ s.chunkOverlap ∧ c1.drop (c1.length - k) = c2.take k :=
  ⟨0, Nat.zero_le _, by simp⟩

/-- Witness for C5 on a 26-character text split with chunk size 10 and
overlap 3. -/
theorem c5_overlap_invariant_witness :
    splitText (mkSplitter (some 10) (some 3)) "abcdefghijklmnopqrstuvwxyz".toList =
      some ["abcdefghij".toList, "hijklmnopq".toList, "opqrstuvwx".toList,
        "vwxyz".toList] ∧
    (∃ k : Nat, k ≤ (mkSplitter (some 10) (some 3)).chunkOverlap ∧
      "abcdefghij".toList.drop ("abcdefghij".toList.length - k) =
        "hijklmnopq".toList.take k) :=
  ⟨by decide,
    c5_overlap_invariant (mkSplitter (some 10) (some 3))
      "abcdefghijklmnopqrstuvwxyz".toList
      ["abcdefghij".toList, "hijklmnopq".toList, "opqrstuvwx".toList, "vwxyz".toList]
      0 "abcdefghij".toList "hijklmnopq".toList (by decide) (by decide) (by decide)⟩

/-- C9.  For every configuration with `2 * overlap < chunkSize` — which the
default `⟨1000, 200⟩` satisfies — `splitText` terminates on every input (the
fuelled loop never runs out because the start index strictly increases each
iteration); and the constructor itself accepts configurations violating the
bound, such as `{chunkSize: 10, chunkOverlap: 20}`. -/
theorem c9_termination :
    (∀ (cs co : Nat) (text : List Char), 2 * co < cs →
        (splitText ⟨cs, co⟩ text).isSome = true) ∧
    mkSplitter none none = ⟨1000, 200⟩ ∧ 2 * 200 < 1000 ∧
    mkSplitter (some 10) (some 20) = ⟨10, 20⟩ ∧ ¬(2 * 20 < 10) :=
  ⟨fun cs co text h2 => splitText_isSome cs co text h2, rfl, by norm_num, rfl,
    by norm_num⟩

/-- Witness for C9 at the default configuration. -/
theorem c9_termination_witness :
    2 * 200 < 1000 ∧ (splitText ⟨1000, 200⟩ ['x']).isSome = true :=
  ⟨by norm_num, c9_termination.1 1000 200 ['x'] (by norm_num)⟩

/-- C10 counterexample.  Claimed: with the default configuration every
returned chunk has length at most `chunkSize = 1000`.  On `t10` (1000 `'a'`s,
then `'.'`, then `"bb"`) the sentence boundary sits exactly at index
`start + chunkSize`, the cut moves to `sentenceBoundary + 1`, and the first
returned chunk has length 1001. -/
theorem c10_counterexample :
    splitText (mkSplitter none none) t10 = some [t10c1, t10c2] ∧
    t10c1.length = 1001 ∧
    ¬(t10c1.length ≤ (mkSplitter none none).chunkSize) := by
  refine ⟨splitText_t10, t10_c1_length, ?_⟩
  rw [t10_c1_length]
  decide

/-- C10 (amended).  With the default configuration every returned chunk has
length at most `chunkSize + 1 = 1001` (the sentence-boundary cut can land one
character past the hard cut), and in the multi-chunk path every returned
chunk is non-empty. -/
theorem c10_chunk_bound (text : List Char) (L : List (List Char)) (c : List Char)
    (hL : splitText (mkSplitter none none) text = some L) (hc : c ∈ L) :
    c.length ≤ 1001 ∧ (1000 < text.length → c ≠ []) :=
  splitText_mem (mkSplitter none none) text L hL c hc

/-- Witness for C10 on a two-character text. -/
theorem c10_chunk_bound_witness :
    splitText (mkSplitter none none) ['h', 'i'] = some [['h', 'i']] ∧
    (['h', 'i'] : List Char).length ≤ 1001 ∧
    (1000 < (['h', 'i'] : List Char).length → (['h', 'i'] : List Char) ≠ []) :=
  ⟨by decide, (c10_chunk_bound ['h', 'i'] [['h', 'i']] ['h', 'i'] (by decide)
      (by decide)).1,
    (c10_chunk_bound ['h', 'i'] [['h', 'i']] ['h', 'i'] (by decide) (by decide)).2⟩

/-- Environment where the GraphRAG insertion resolves with `success: false`
(the graph step wholly failed: none of the content was inserted), while
embedding and all vector-store batches succeed. -/
def c6Env : AddDocsEnv := ⟨none, fun _ => none, .ok ⟨false, "GraphRAG insertion failed"⟩⟩

/-- C6 counterexample.  Claimed: the insert fails with the first error
encountered when zero chunks succeeded.  Here the graph-insertion step
succeeds for none of the content (`success: false`), yet `addDocuments`
still returns `success: true` with the full chunk count — the graph outcome
never influences the result. -/
theorem c6_counterexample :
    c6Env.graphResult = .ok ⟨false, "GraphRAG insertion failed"⟩ ∧
    addDocuments c6Env "hello".toList = some (.ok ⟨true, 1⟩) :=
  ⟨rfl, rfl⟩

/-- C6 (amended).  The graph-insertion step is entirely best-effort: whatever
its outcome — including total failure — `addDocuments` reports
`success: true` with the full chunk count, provided the embedding call and
every vector-store batch insert succeed.  (A vector-store batch error, by
contrast, aborts the operation with that error even when earlier batches
succeeded.) -/
theorem c6_graph_best_effort (env : AddDocsEnv) (content : List Char)
    (chunks : List (List Char))
    (hs : splitText vsSplitter content = some chunks)
    (he : env.embedError = none)
    (hb : ∀ i, env.batchInsertError i = none) :
    addDocuments env content = some (.ok ⟨true, chunks.length⟩) := by
  unfold addDocuments
  rw [hs, Option.map_some', he]
  have hfind : (List.range (numBatches chunks.length)).findSome? env.batchInsertError
      = none :=
    List.findSome?_eq_none_iff.mpr (fun i _ => hb i)
  rw [hfind]

/-- Environment where the GraphRAG call rejects outright. -/
def c6EnvW : AddDocsEnv := ⟨none, fun _ => none, .error "GraphRAG service is unavailable"⟩

/-- Witness for C6: a rejected GraphRAG call, successful embedding and
batches — the insert still succeeds. -/
theorem c6_graph_best_effort_witness :
    splitText vsSplitter "hi".toList = some ["hi".toList] ∧
    c6EnvW.embedError = none ∧
    addDocuments c6EnvW "hi".toList = some (.ok ⟨true, ["hi".toList].length⟩) :=
  ⟨rfl, rfl, c6_graph_best_effort c6EnvW "hi".toList ["hi".toList] rfl rfl
    (fun _ => rfl)⟩

/-- A raw response whose `success` field is the (truthy, non-boolean)
number 1 and whose other fields are `undefined`. -/
def c7BadResp : RawQueryGraphResponse := ⟨.vUndef, .vUndef, .vNum 1, .vUndef⟩

/-- C7 counterexample.  Claimed: missing fields are replaced by defaults and
a result whose `success` field is not a boolean is never handed to the
caller.  The plain client's `queryGraph` (src/lib/grpc-client.ts) resolves
the raw response unchanged: the caller receives `success = 1` (not a
boolean) and an `undefined` `error` field (not a string). -/
theorem c7_counterexample :
    queryGraphPlain none c7BadResp = .ok c7BadResp ∧
    isBoolVal c7BadResp.success = false ∧
    isStrVal c7BadResp.error = false :=
  ⟨rfl, rfl, rfl⟩

/-- C7 (amended).  Only the enhanced client's `processFile` enforces the
claim: it rejects every response whose `success` is not a boolean and
otherwise delivers a result with that boolean and `''`/`{}`/`0` defaults for
falsy fields.  The enhanced `queryGraph` substitutes defaults for falsy
fields (a missing `success` becomes `false`) but passes a truthy non-boolean
`success` through unchanged, and the plain client's `queryGraph` performs no
validation at all. -/
theorem c7_validation :
    (∀ (r v : RawProcessFileResponse),
        validateProcessFileResponse r = .ok v → isBoolVal v.success = true) ∧
    (∀ r : RawProcessFileResponse, isBoolVal r.success = false →
        validateProcessFileResponse r =
          .error "Invalid response from processing service") ∧
    validateQueryGraphResponse ⟨.vUndef, .vUndef, .vUndef, .vUndef⟩ =
      ⟨.vStr "", .vObj, .vBool false, .vStr ""⟩ ∧
    validateQueryGraphResponse ⟨.vStr "ok", .vObj, .vNum 1, .vStr ""⟩ =
      ⟨.vStr "ok", .vObj, .vNum 1, .vStr ""⟩ ∧
    (∀ r : RawQueryGraphResponse, queryGraphPlain none r = .ok r) := by
  refine ⟨?_, ?_, rfl, rfl, fun r => rfl⟩
  · intro r v hv
    unfold validateProcessFileResponse at hv
    split at hv
    · obtain rfl : _ = v := Except.ok.inj hv
      simpa using by assumption
    · exact absurd hv (by simp)
  · intro r hb
    unfold validateProcessFileResponse
    rw [if_neg (by simp [hb])]

/-- A well-formed raw `processFile` response and its validated form. -/
def c7GoodRaw : RawProcessFileResponse := ⟨.vBool true, .vUndef, .vUndef, .vUndef⟩

def c7GoodVal : RawProcessFileResponse := ⟨.vBool true, .vStr "", .vStr "", .vNum 0⟩

/-- Witness for C7: at a concrete raw response, validation fills the
defaults and the delivered `success` is a boolean. -/
theorem c7_validation_witness :
    validateProcessFileResponse c7GoodRaw = .ok c7GoodVal ∧
    isBoolVal c7GoodVal.success = true :=
  ⟨rfl, c7_validation.1 c7GoodRaw c7GoodVal rfl⟩

/-- C8 counterexample.  Claimed: exceeding the deadline aborts the remaining
in-flight sub-calls and returns a `TimeoutError` result.  When the gRPC
callback arrives at (or after) the 2-minute deadline, the caller's promise
has already been *rejected* with a plain timeout `Error` — an exception, not
a structured result carrying a success flag — and the timeout handler
performs no cancellation of the in-flight call. -/
theorem c8_counterexample :
    insertContentSettled (some 120000) (.ok ⟨true, ""⟩) =
      .rejected "gRPC call timeout: Content insertion took too long" ∧
    TimerEffect.cancelCall ∉ insertContentTimeoutEffects :=
  ⟨rfl, by decide⟩

/-- C8 (amended).  Each call registers the stated deadline (insertContent
2 min, processFile 5 min, queryGraph 30 s); if the callback does not arrive
strictly before the deadline the promise is rejected with a timeout `Error`,
so the caller observes an exception rather than an indefinite hang — but no
structured `TimeoutError` result is produced and the in-flight gRPC sub-call
is not cancelled. -/
theorem c8_timeout_behaviour (arrival : Option Nat)
    (cb : Except String InsertContentResult)
    (h : ∀ t, arrival = some t → insertContentDeadlineMs ≤ t) :
    insertContentSettled arrival cb =
      .rejected "gRPC call timeout: Content insertion took too long" ∧
    TimerEffect.cancelCall ∉ insertContentTimeoutEffects ∧
    insertContentDeadlineMs = 120000 ∧ processFileDeadlineMs = 300000 ∧
    queryGraphDeadlineMs = 30000 := by
  refine ⟨?_, by decide, rfl, rfl, rfl⟩
  unfold insertContentSettled raceWithTimeout
  cases arrival with
  | none => rfl
  | some t =>
    have ht := h t rfl
    dsimp only
    rw [if_neg (by omega)]

/-- Witness for C8: a callback that never fires settles as the timeout
rejection. -/
theorem c8_timeout_behaviour_witness :
    insertContentSettled none (.ok ⟨true, ""⟩) =
      .rejected "gRPC call timeout: Content insertion took too long" :=
  (c8_timeout_behaviour none (.ok ⟨true, ""⟩) (fun t ht => nomatch ht)).1

end NotebookLM
